import Mathlib

/-!
Verification development for scan_files_head.py, a directory scanner that
selects a bounded number of csv/xls/xlsx files per folder (newest first),
extracts the first N lines of each, and writes one rectangular CSV report.

The embedding models the pure decision logic of the script: encoding
detection by byte-order mark and statistical guessers, line extraction for
csv and spreadsheet files, per-folder candidate selection, report row
normalization, and settings parsing.  File-system and library effects are
represented by explicit data (byte lists, decoded character lists, sheet
row lists, stat results, detector guesses); a library call that can raise
is represented by an explicit failure constructor.
-/

namespace ScanFiles

/-! ### Constants (scan_files_head.py lines 31-41) -/

def DEFAULT_MAX_FILES_PER_FOLDER : Int := 100

def DEFAULT_LINES_PER_FILE : Int := 5

def ALLOWED_EXTS : List String := [".csv", ".xls", ".xlsx"]

/-! ### Path suffix, as pathlib Path(p).suffix followed by str.lower() -/

def pathSep (c : Char) : Bool := c = '/' || c = '\\'

/-- Final component of a path (the part after the last separator). -/
def baseName (path : String) : String :=
  ⟨(path.data.reverse.takeWhile (fun c => !pathSep c)).reverse⟩

/-- Extension of the final component, pathlib semantics: the substring from
the last dot, provided that dot is neither the first nor the last character
of the name; otherwise the empty string. -/
def pathSuffix (path : String) : String :=
  let name := (baseName path).data
  let k := (name.reverse.takeWhile (fun c => c ≠ '.')).length
  if k < name.length then
    let j := name.length - k - 1
    if 0 < j ∧ 0 < k then ⟨name.drop j⟩ else ""
  else ""

/-- ASCII lowering of a string, as str.lower() acts on the extensions that
occur here. -/
def strLower (s : String) : String := ⟨s.data.map Char.toLower⟩

/-! ### Encoding detection (detect_encoding, lines 200-247)

The up-to-256KB byte prefix read from the file is the list data.  The two
statistical detectors (charset-normalizer and chardet) are library calls;
each is modelled by its observable outcome: some enc when the detector
produced the encoding name enc, none when it produced nothing or raised. -/

def bytesStartWith (data sig : List Nat) : Bool := decide (data.take sig.length = sig)

def detect_encoding (data : List Nat) (normalizerGuess chardetGuess : Option String) :
    Option String :=
  if bytesStartWith data [0xef, 0xbb, 0xbf] then some "utf-8-sig"
  else if bytesStartWith data [0xff, 0xfe, 0x00, 0x00] ||
          bytesStartWith data [0x00, 0x00, 0xfe, 0xff] then some "utf-32"
  else if bytesStartWith data [0xff, 0xfe] || bytesStartWith data [0xfe, 0xff] then
    some "utf-16"
  else
    match normalizerGuess with
    | some enc => if strLower enc = "ascii" then some "utf-8" else some enc
    | none =>
      match chardetGuess with
      | some enc => if strLower enc = "ascii" then some "utf-8" else some enc
      | none => none

/-! ### CSV line extraction (read_csv_first_lines, lines 250-284)

The file is opened in text mode with newline set to the empty string, so
iteration yields lines terminated by CR, LF or CRLF, terminators kept; the
script then strips the terminator with rstrip over CR and LF.
pySplitLines models that iteration on the decoded character content. -/

def pySplitLines (acc : List Char) : List Char → List (List Char)
  | [] => if acc.isEmpty then [] else [acc.reverse]
  | '\r' :: '\n' :: rest => (acc.reverse ++ ['\r', '\n']) :: pySplitLines [] rest
  | '\r' :: rest => (acc.reverse ++ ['\r']) :: pySplitLines [] rest
  | '\n' :: rest => (acc.reverse ++ ['\n']) :: pySplitLines [] rest
  | c :: rest => pySplitLines (c :: acc) rest

/-- Python rstrip with the two newline characters. -/
def rstripCRLF (l : List Char) : List Char :=
  (l.reverse.dropWhile (fun c => c = '\r' || c = '\n')).reverse

/-- Number of lines Python iteration yields for the decoded content. -/
def csvLineCount (content : List Char) : Nat := (pySplitLines [] content).length

/-- A csv file as the extractor observes it: either some candidate encoding
decoded it to content (the strict chain, or the final lossy cp1251 pass,
always succeeds when the file can be opened), or every open attempt raised. -/
inductive CsvFile where
  | decoded (content : List Char)
  | inaccessible

def CSV_FAIL_SENTINEL : String := "<не удалось прочитать CSV>"

def read_csv_first_lines (file : CsvFile) (n : Nat) : List String :=
  match file with
  | .decoded content => ((pySplitLines [] content).take n).map (fun l => ⟨rstripCRLF l⟩)
  | .inaccessible => [CSV_FAIL_SENTINEL]

/-! ### Spreadsheet extraction (read_xlsx_first_rows / read_xls_first_rows,
lines 287-321)

The first sheet is a list of rows, each row a list of cells; a cell is
none for an empty cell and some s when str of the value is s.  A reader
that raises while opening or reading is the error constructor. -/

inductive SheetFile where
  | sheet (rows : List (List (Option String)))
  | error (msg : String)

/-- Empty string if the cell value is None, else str of the value. -/
def cellText (v : Option String) : String :=
  match v with
  | none => ""
  | some s => s

def isPySpace (c : Char) : Bool :=
  c = ' ' || c = '\t' || c = '\n' || c = '\r' || c = '\x0b' || c = '\x0c'

/-- Python str.rstrip with no arguments: drop trailing whitespace. -/
def pyRstrip (s : String) : String := ⟨(s.data.reverse.dropWhile isPySpace).reverse⟩

def rowText (row : List (Option String)) : String :=
  pyRstrip (String.intercalate "\t" (row.map cellText))

def read_xlsx_first_rows (file : SheetFile) (n : Nat) : List String :=
  match file with
  | .sheet rows =>
    let out := (rows.take n).map rowText
    if out.isEmpty then List.replicate n "" else out
  | .error msg => ["<xlsx ошибка: " ++ msg ++ ">"]

def XLRD_MISSING_SENTINEL : String := "<xlrd не установлен. Установите: pip install xlrd>"

def read_xls_first_rows (xlrdAvailable : Bool) (file : SheetFile) (n : Nat) : List String :=
  if !xlrdAvailable then [XLRD_MISSING_SENTINEL]
  else
    match file with
    | .sheet allRows =>
      let nrows := min n allRows.length
      let out := (allRows.take nrows).map rowText
      if nrows = 0 then List.replicate n "" else out
    | .error msg => ["<xls ошибка: " ++ msg ++ ">"]

/-! ### Per-file dispatch (get_first_lines_for_file, lines 324-332) -/

/-- One file as each of the three readers would observe it. -/
structure ScanFile where
  csvView : CsvFile
  xlsxView : SheetFile
  xlsView : SheetFile

def UNSUPPORTED_EXT_SENTINEL : String := "<неподдерживаемое расширение>"

def get_first_lines_for_file (xlrdAvailable : Bool) (path : String) (file : ScanFile)
    (n : Nat) : List String :=
  let ext := strLower (pathSuffix path)
  if ext = ".csv" then read_csv_first_lines file.csvView n
  else if ext = ".xlsx" then read_xlsx_first_rows file.xlsxView n
  else if ext = ".xls" then read_xls_first_rows xlrdAvailable file.xlsView n
  else [UNSUPPORTED_EXT_SENTINEL]

/-! ### Folder selection (scan_and_dump, lines 386-407)

A directory listing is a list of pairs: file name and the stat result for
it, none when os.stat raised (such an entry is dropped from ranking). -/

def allowedExtName (name : String) : Bool := ALLOWED_EXTS.contains (strLower (pathSuffix name))

/-- Extension filter then stat collection: the items list of the source. -/
def collectItems (files : List (String × Option Int)) : List (String × Int) :=
  (files.filter (fun f => allowedExtName f.1)).filterMap
    (fun f => f.2.map (fun k => (f.1, k)))

/-- Python list.sort with key the timestamp and reverse true: a stable sort
descending on the key. -/
def rankItems (items : List (String × Int)) : List (String × Int) :=
  items.mergeSort (fun a b => decide (b.2 ≤ a.2))

/-- Lines 406-407: truncate to the per-folder limit only when the limit is
positive and the item count exceeds it. -/
def applyFolderCap (cap : Int) (items : List (String × Int)) : List (String × Int) :=
  if 0 < cap ∧ cap < (items.length : Int) then items.take cap.toNat else items

def folderSelect (files : List (String × Option Int)) (cap : Int) : List (String × Int) :=
  applyFolderCap cap (rankItems (collectItems files))

/-! ### Report rows and counters (scan_and_dump, lines 409-432) -/

/-- Lines 415-418: pad the extracted lines with empty strings up to the
global maximum, or truncate them down to it. -/
def normalizeLines (lines : List String) (g : Nat) : List String :=
  if lines.length < g then lines ++ List.replicate (g - lines.length) ""
  else if g < lines.length then lines.take g
  else lines

/-- Outcome of the try block around one file: the extractor returned lines
and the row was written, or some step raised and the except branch ran. -/
inductive AttemptResult where
  | ok (lines : List String)
  | raised

/-- The per-file loop: returns (total_written, skipped, rows written), a row
being the file path followed by the normalized lines. -/
def scanLoop (g : Nat) : List (String × AttemptResult) → Nat × Nat × List (List String)
  | [] => (0, 0, [])
  | (fp, .ok lines) :: rest =>
    ((scanLoop g rest).1 + 1, (scanLoop g rest).2.1,
      (fp :: normalizeLines lines g) :: (scanLoop g rest).2.2)
  | (_, .raised) :: rest =>
    ((scanLoop g rest).1, (scanLoop g rest).2.1 + 1, (scanLoop g rest).2.2)

/-! ### Settings (read_settings, lines 112-187)

One settings row carries the path cell, whether the expanded path is a
directory, and the two numeric cells.  A numeric cell is modelled by the
outcome of the int(float(str(cell).strip())) conversion: empty when the
cell is None or blank, numeric v when the conversion returns v, junk when
it raises. -/

inductive CellValue where
  | empty
  | numeric (v : Int)
  | junk

def parseLimitCell (cell : CellValue) : Int :=
  match cell with
  | .empty => DEFAULT_MAX_FILES_PER_FOLDER
  | .numeric v => if 0 < v then v else DEFAULT_MAX_FILES_PER_FOLDER
  | .junk => DEFAULT_MAX_FILES_PER_FOLDER

def parseLinesCell (cell : CellValue) : Int :=
  match cell with
  | .empty => DEFAULT_LINES_PER_FILE
  | .numeric v => if 0 < v then v else DEFAULT_LINES_PER_FILE
  | .junk => DEFAULT_LINES_PER_FILE

structure SettingsRow where
  pathPresent : Bool
  path : String
  pathIsDir : Bool
  limitCell : CellValue
  linesCell : CellValue

/-- The accepted (path, limit, lines) triples, in settings order. -/
def read_settings_rows : List SettingsRow → List (String × Int × Int)
  | [] => []
  | row :: rest =>
    if row.pathPresent && row.pathIsDir then
      (row.path, parseLimitCell row.limitCell, parseLinesCell row.linesCell) ::
        read_settings_rows rest
    else read_settings_rows rest

/-- Roots and the global maximum of lines per file; when no row is accepted
the application directory with the defaults is substituted. -/
def read_settings (rows : List SettingsRow) (app_dir : String) :
    List (String × Int × Int) × Int :=
  let roots := read_settings_rows rows
  if roots.isEmpty then
    ([(app_dir, DEFAULT_MAX_FILES_PER_FOLDER, DEFAULT_LINES_PER_FILE)], DEFAULT_LINES_PER_FILE)
  else
    (roots, (roots.map (fun r => r.2.2)).foldl max 0)

/-! ### Helper lemmas -/

theorem length_normalizeLines (lines : List String) (g : Nat) :
    (normalizeLines lines g).length = g := by
  unfold normalizeLines
  split
  · simp
    omega
  · split
    · simp
      omega
    · omega

theorem one_le_parseLimitCell (cell : CellValue) : 1 ≤ parseLimitCell cell := by
  cases cell with
  | empty => simp [parseLimitCell, DEFAULT_MAX_FILES_PER_FOLDER]
  | junk => simp [parseLimitCell, DEFAULT_MAX_FILES_PER_FOLDER]
  | numeric v =>
    simp only [parseLimitCell]
    split
    · omega
    · simp [DEFAULT_MAX_FILES_PER_FOLDER]

theorem one_le_parseLinesCell (cell : CellValue) : 1 ≤ parseLinesCell cell := by
  cases cell with
  | empty => simp [parseLinesCell, DEFAULT_LINES_PER_FILE]
  | junk => simp [parseLinesCell, DEFAULT_LINES_PER_FILE]
  | numeric v =>
    simp only [parseLinesCell]
    split
    · omega
    · simp [DEFAULT_LINES_PER_FILE]

theorem read_settings_rows_positive (rows : List SettingsRow) :
    ∀ r ∈ read_settings_rows rows, 1 ≤ r.2.1 ∧ 1 ≤ r.2.2 := by
  induction rows with
  | nil => simp [read_settings_rows]
  | cons row rest ih =>
    intro r hr
    simp only [read_settings_rows] at hr
    split at hr
    · rcases List.mem_cons.mp hr with h | h
      · subst h
        exact ⟨one_le_parseLimitCell _, one_le_parseLinesCell _⟩
      · exact ih r h
    · exact ih r hr

theorem take_eq_of_take_eq {α : Type} {l : List α} {m n : Nat} (hmn : m ≤ n)
    {xs : List α} (h : l.take n = xs) : l.take m = xs.take m := by
  have ht := List.take_take m n l
  rw [Nat.min_eq_left hmn] at ht
  rw [← ht, h]

/-- True when the character list holds no carriage return and no line feed. -/
def noNewline (l : List Char) : Bool := l.all (fun c => !(c = '\r' || c = '\n'))

theorem dropWhile_noNewline {l : List Char} (h : noNewline l = true) :
    l.dropWhile (fun c => c = '\r' || c = '\n') = l := by
  cases l with
  | nil => rfl
  | cons c t =>
    simp only [noNewline, List.all_cons, Bool.and_eq_true, Bool.not_eq_true',
      Bool.or_eq_false_iff, decide_eq_false_iff_not] at h
    simp [List.dropWhile_cons, h.1.1, h.1.2]

theorem rstripCRLF_reverse {acc : List Char} (h : noNewline acc = true) :
    rstripCRLF acc.reverse = acc.reverse := by
  simp [rstripCRLF, dropWhile_noNewline h]

theorem rstripCRLF_term_nl {acc : List Char} (h : noNewline acc = true) :
    rstripCRLF (acc.reverse ++ ['\n']) = acc.reverse := by
  simp [rstripCRLF, List.dropWhile_cons, dropWhile_noNewline h]

theorem rstripCRLF_term_cr {acc : List Char} (h : noNewline acc = true) :
    rstripCRLF (acc.reverse ++ ['\r']) = acc.reverse := by
  simp [rstripCRLF, List.dropWhile_cons, dropWhile_noNewline h]

theorem rstripCRLF_term_crnl {acc : List Char} (h : noNewline acc = true) :
    rstripCRLF (acc.reverse ++ ['\r', '\n']) = acc.reverse := by
  simp [rstripCRLF, List.dropWhile_cons, dropWhile_noNewline h]

theorem noNewline_reverse {l : List Char} : noNewline l.reverse = noNewline l := by
  simp [noNewline, List.all_reverse]

theorem pySplitLines_clean (acc cs : List Char) :
    noNewline acc = true → ∀ l ∈ pySplitLines acc cs, noNewline (rstripCRLF l) = true := by
  induction acc, cs using pySplitLines.induct with
  | case1 acc hemp =>
    intro hacc l hl
    simp only [pySplitLines] at hl
    rw [if_pos hemp] at hl
    simp at hl
  | case2 acc hemp =>
    intro hacc l hl
    simp only [pySplitLines] at hl
    rw [if_neg hemp] at hl
    rcases List.mem_singleton.mp hl
    rw [rstripCRLF_reverse hacc, noNewline_reverse]
    exact hacc
  | case3 acc rest ih =>
    intro hacc l hl
    simp only [pySplitLines, List.mem_cons] at hl
    rcases hl with h | h
    · subst h
      rw [rstripCRLF_term_crnl hacc, noNewline_reverse]
      exact hacc
    · exact ih rfl l h
  | case4 acc rest hshape ih =>
    intro hacc l hl
    simp only [pySplitLines, List.mem_cons] at hl
    rcases hl with h | h
    · subst h
      rw [rstripCRLF_term_cr hacc, noNewline_reverse]
      exact hacc
    · exact ih rfl l h
  | case5 acc rest ih =>
    intro hacc l hl
    simp only [pySplitLines, List.mem_cons] at hl
    rcases hl with h | h
    · subst h
      rw [rstripCRLF_term_nl hacc, noNewline_reverse]
      exact hacc
    · exact ih rfl l h
  | case6 acc c rest hc0 hc1 hc2 ih =>
    intro hacc l hl
    simp only [pySplitLines] at hl
    refine ih ?_ l hl
    simp only [noNewline, List.all_cons, Bool.and_eq_true]
    refine ⟨?_, hacc⟩
    simp only [Bool.not_eq_true', Bool.or_eq_false_iff, decide_eq_false_iff_not]
    exact ⟨hc1, hc2⟩

/-! ### Claims -/

/-- C1: every row emitted by the report loop consists of the file path
followed by exactly the global maximum number of line cells: short
extractor results are right-padded with empty strings and long ones are
truncated, whatever per-root line count produced them. -/
theorem report_rows_have_global_width (g : Nat) (files : List (String × AttemptResult))
    (row : List String) (hmem : row ∈ (scanLoop g files).2.2) : row.length = g + 1 := by
  induction files with
  | nil => simp [scanLoop] at hmem
  | cons f rest ih =>
    obtain ⟨fp, r⟩ := f
    cases r with
    | ok lines =>
      simp only [scanLoop, List.mem_cons] at hmem
      rcases hmem with h | h
      · subst h
        simp [length_normalizeLines]
      · exact ih h
    | raised =>
      simp only [scanLoop] at hmem
      exact ih hmem

theorem report_rows_have_global_width_witness :
    (["f", "x", ""] ∈ (scanLoop 2 [("f", AttemptResult.ok ["x"])]).2.2) ∧
      (["f", "x", ""] : List String).length = 2 + 1 :=
  ⟨by decide, report_rows_have_global_width 2 [("f", AttemptResult.ok ["x"])] ["f", "x", ""]
    (by decide)⟩

/-- C2: with a positive per-folder cap the selection from one directory
never exceeds the cap, and with a cap at most zero no truncation happens:
the selection is the full ranked list of the matching rankable candidates,
a permutation of all of them. -/
theorem folder_cap_bounds (files : List (String × Option Int)) (cap : Int) :
    (0 < cap → ((folderSelect files cap).length : Int) ≤ cap) ∧
      (cap ≤ 0 → folderSelect files cap = rankItems (collectItems files) ∧
        (folderSelect files cap).Perm (collectItems files)) := by
  constructor
  · intro hcap
    unfold folderSelect applyFolderCap
    split
    · simp only [List.length_take]
      omega
    · rename_i h
      simp only [not_and, not_lt] at h
      exact h hcap
  · intro hcap
    unfold folderSelect applyFolderCap
    rw [if_neg (fun h => absurd hcap (not_le.mpr h.1))]
    exact ⟨rfl, List.mergeSort_perm _ _⟩

theorem folder_cap_bounds_witness :
    (0 : Int) < 1 ∧ ((folderSelect [("a.csv", some 5)] 1).length : Int) ≤ 1 :=
  ⟨by decide, (folder_cap_bounds [("a.csv", some 5)] 1).1 (by decide)⟩

/-- C3 counterexample: an empty first sheet has fewer rows than a requested
cap of 2, yet both spreadsheet readers return 2 padded empty strings, not 0
rows, so padding does happen at this layer for empty sheets. -/
theorem empty_sheet_padded_counterexample :
    ([] : List (List (Option String))).length < 2 ∧
      (read_xlsx_first_rows (SheetFile.sheet []) 2).length ≠
        ([] : List (List (Option String))).length ∧
      (read_xls_first_rows true (SheetFile.sheet []) 2).length ≠
        ([] : List (List (Option String))).length := by
  decide

/-- C3 amended: for a first sheet that has at least one row and fewer rows
than the requested cap, both spreadsheet readers return exactly as many row
strings as the sheet has, with no padding at this layer; only a sheet with
no rows at all is padded here to the requested cap with empty strings. -/
theorem short_nonempty_sheet_exact (rows : List (List (Option String))) (n : Nat)
    (hne : rows ≠ []) (hlt : rows.length < n) :
    (read_xlsx_first_rows (SheetFile.sheet rows) n).length = rows.length ∧
      (read_xls_first_rows true (SheetFile.sheet rows) n).length = rows.length := by
  constructor
  · simp only [read_xlsx_first_rows]
    rw [List.take_of_length_le hlt.le]
    rw [if_neg (by simp [hne])]
    simp
  · simp only [read_xls_first_rows, Bool.not_true]
    rw [if_neg (by simp)]
    have hmin : min n rows.length = rows.length := Nat.min_eq_right hlt.le
    rw [hmin, if_neg (by simp [hne]), List.take_of_length_le (Nat.le_refl _)]
    simp

theorem short_nonempty_sheet_exact_witness :
    ([[some "x"]] : List (List (Option String))) ≠ [] ∧
      ([[some "x"]] : List (List (Option String))).length < 2 ∧
      (read_xlsx_first_rows (SheetFile.sheet [[some "x"]]) 2).length =
        ([[some "x"]] : List (List (Option String))).length ∧
      (read_xls_first_rows true (SheetFile.sheet [[some "x"]]) 2).length =
        ([[some "x"]] : List (List (Option String))).length :=
  ⟨by decide, by decide, short_nonempty_sheet_exact [[some "x"]] 2 (by decide) (by decide)⟩

/-- C8: each attempted file increments exactly one of the two counters, so
written plus skipped equals the number of files attempted, and exactly one
row is emitted per written file (none for a skipped file). -/
theorem written_plus_skipped_total (g : Nat) (files : List (String × AttemptResult)) :
    (scanLoop g files).1 + (scanLoop g files).2.1 = files.length ∧
      (scanLoop g files).2.2.length = (scanLoop g files).1 := by
  induction files with
  | nil => simp [scanLoop]
  | cons f rest ih =>
    obtain ⟨fp, r⟩ := f
    cases r with
    | ok lines =>
      simp only [scanLoop, List.length_cons]
      omega
    | raised =>
      simp only [scanLoop, List.length_cons]
      omega

/-- C10: every root produced by settings reading carries a per-folder limit
and a lines-per-file value of at least 1, and a missing, unparsable, zero
or negative numeric cell is replaced by the defaults 100 and 5, so the
unbounded selection branch is unreachable from configuration. -/
theorem settings_roots_positive (rows : List SettingsRow) (app_dir : String) :
    (∀ r ∈ (read_settings rows app_dir).1, 1 ≤ r.2.1 ∧ 1 ≤ r.2.2) ∧
      (∀ cell : CellValue,
        (cell = CellValue.empty ∨ cell = CellValue.junk ∨
          ∃ v, cell = CellValue.numeric v ∧ v ≤ 0) →
        parseLimitCell cell = DEFAULT_MAX_FILES_PER_FOLDER ∧
          parseLinesCell cell = DEFAULT_LINES_PER_FILE) := by
  constructor
  · intro r hr
    simp only [read_settings] at hr
    split at hr
    · rcases List.mem_singleton.mp hr with h
      subst h
      constructor
      · simp [DEFAULT_MAX_FILES_PER_FOLDER]
      · simp [DEFAULT_LINES_PER_FILE]
    · exact read_settings_rows_positive rows r hr
  · intro cell hcell
    rcases hcell with h | h | ⟨v, h, hv⟩
    · subst h
      exact ⟨rfl, rfl⟩
    · subst h
      exact ⟨rfl, rfl⟩
    · subst h
      constructor
      · simp only [parseLimitCell]
        rw [if_neg (by omega)]
      · simp only [parseLinesCell]
        rw [if_neg (by omega)]

theorem settings_roots_positive_witness :
    (("d", (100 : Int), (5 : Int)) ∈ (read_settings [] "d").1) ∧
      1 ≤ (("d", (100 : Int), (5 : Int)) : String × Int × Int).2.1 ∧
      1 ≤ (("d", (100 : Int), (5 : Int)) : String × Int × Int).2.2 :=
  ⟨by decide, (settings_roots_positive [] "d").1 ("d", (100 : Int), (5 : Int)) (by decide)⟩

unseal List.merge List.mergeSort in
theorem folderSelect_example_eval :
    folderSelect [("a.csv", some 5), ("b.xls", some 1), ("c.xlsx", some 9)] 2 =
      [("c.xlsx", 9), ("a.csv", 5)] := by
  decide

/-- C4: byte-order marks are checked longest first: a UTF-8 BOM yields the
UTF-8-with-BOM identifier, a 4-byte UTF-32 BOM of either byte order yields
the UTF-32 identifier and is never misread as UTF-16, and a 2-byte UTF-16
BOM with no UTF-32 BOM yields the UTF-16 identifier. -/
theorem bom_detection (data : List Nat) (nr cr : Option String) :
    (bytesStartWith data [0xef, 0xbb, 0xbf] = true →
      detect_encoding data nr cr = some "utf-8-sig") ∧
    ((bytesStartWith data [0xff, 0xfe, 0x00, 0x00] ||
        bytesStartWith data [0x00, 0x00, 0xfe, 0xff]) = true →
      detect_encoding data nr cr = some "utf-32" ∧
        detect_encoding data nr cr ≠ some "utf-16") ∧
    ((bytesStartWith data [0xff, 0xfe] || bytesStartWith data [0xfe, 0xff]) = true →
      (bytesStartWith data [0xff, 0xfe, 0x00, 0x00] ||
        bytesStartWith data [0x00, 0x00, 0xfe, 0xff]) = false →
      detect_encoding data nr cr = some "utf-16") := by
  refine ⟨?_, ?_, ?_⟩
  · intro h8
    simp [detect_encoding, h8]
  · intro h32
    have hEF : bytesStartWith data [0xef, 0xbb, 0xbf] = false := by
      rcases Bool.or_eq_true_iff.mp h32 with h | h
      · have ht4 : data.take 4 = [0xff, 0xfe, 0x00, 0x00] := of_decide_eq_true h
        have ht3 : data.take 3 = [0xff, 0xfe, 0x00] :=
          @take_eq_of_take_eq Nat data 3 4 (by norm_num) _ ht4
        simp only [bytesStartWith, decide_eq_false_iff_not]
        intro hc
        have hc3 : data.take 3 = [0xef, 0xbb, 0xbf] := hc
        rw [ht3] at hc3
        exact absurd hc3 (by decide)
      · have ht4 : data.take 4 = [0x00, 0x00, 0xfe, 0xff] := of_decide_eq_true h
        have ht3 : data.take 3 = [0x00, 0x00, 0xfe] :=
          @take_eq_of_take_eq Nat data 3 4 (by norm_num) _ ht4
        simp only [bytesStartWith, decide_eq_false_iff_not]
        intro hc
        have hc3 : data.take 3 = [0xef, 0xbb, 0xbf] := hc
        rw [ht3] at hc3
        exact absurd hc3 (by decide)
    constructor
    · simp [detect_encoding, hEF, h32]
    · simp [detect_encoding, hEF, h32]
  · intro h16 h32
    have hEF : bytesStartWith data [0xef, 0xbb, 0xbf] = false := by
      rcases Bool.or_eq_true_iff.mp h16 with h | h
      · have ht2 : data.take 2 = [0xff, 0xfe] := of_decide_eq_true h
        simp only [bytesStartWith, decide_eq_false_iff_not]
        intro hc
        have hc3 : data.take 3 = [0xef, 0xbb, 0xbf] := hc
        have hc2 : data.take 2 = [0xef, 0xbb] :=
          @take_eq_of_take_eq Nat data 2 3 (by norm_num) _ hc3
        rw [ht2] at hc2
        exact absurd hc2 (by decide)
      · have ht2 : data.take 2 = [0xfe, 0xff] := of_decide_eq_true h
        simp only [bytesStartWith, decide_eq_false_iff_not]
        intro hc
        have hc3 : data.take 3 = [0xef, 0xbb, 0xbf] := hc
        have hc2 : data.take 2 = [0xef, 0xbb] :=
          @take_eq_of_take_eq Nat data 2 3 (by norm_num) _ hc3
        rw [ht2] at hc2
        exact absurd hc2 (by decide)
    simp [detect_encoding, hEF, h32, h16]

theorem bom_detection_witness :
    bytesStartWith [0xef, 0xbb, 0xbf, 0x61] [0xef, 0xbb, 0xbf] = true ∧
      detect_encoding [0xef, 0xbb, 0xbf, 0x61] none none = some "utf-8-sig" :=
  ⟨by decide, (bom_detection [0xef, 0xbb, 0xbf, 0x61] none none).1 (by decide)⟩

/-- C5: on a decodable csv file the extractor returns exactly the minimum of
the requested cap and the number of lines of the file, where a line ends at
CR, LF or CRLF, and every returned string has its terminator stripped, so it
holds no CR and no LF at all. -/
theorem csv_line_extraction (content : List Char) (n : Nat) :
    (read_csv_first_lines (CsvFile.decoded content) n).length = min n (csvLineCount content) ∧
      (read_csv_first_lines (CsvFile.decoded content) n).all
        (fun s => noNewline s.data) = true := by
  constructor
  · simp [read_csv_first_lines, csvLineCount]
  · simp only [read_csv_first_lines, List.all_eq_true]
    intro s hs
    rcases List.mem_map.mp hs with ⟨l, hl, hsl⟩
    have hclean := pySplitLines_clean [] content rfl l (List.mem_of_mem_take hl)
    rw [← hsl]
    exact hclean

/-- C6: folder selection ranks candidates by timestamp descending before
truncating to the cap: the selected sequence is always pairwise descending
on the key, and for candidates with timestamps 5, 1, 9 and cap 2 it is the
timestamp-9 file followed by the timestamp-5 file. -/
theorem ranking_descending :
    (∀ (items : List (String × Int)) (cap : Int),
      (applyFolderCap cap (rankItems items)).Pairwise
        (fun a b : String × Int => b.2 ≤ a.2)) ∧
      folderSelect [("a.csv", some 5), ("b.xls", some 1), ("c.xlsx", some 9)] 2 =
        [("c.xlsx", 9), ("a.csv", 5)] := by
  constructor
  · intro items cap
    have htrans : ∀ a b c : String × Int,
        decide (b.2 ≤ a.2) = true → decide (c.2 ≤ b.2) = true →
          decide (c.2 ≤ a.2) = true := by
      intro a b c h1 h2
      simp only [decide_eq_true_eq] at h1 h2 ⊢
      omega
    have htotal : ∀ a b : String × Int,
        (decide (b.2 ≤ a.2) || decide (a.2 ≤ b.2)) = true := by
      intro a b
      by_cases h : b.2 ≤ a.2
      · simp [h]
      · simp only [Bool.or_eq_true, decide_eq_true_eq]
        omega
    have hsorted :=
      @List.sorted_mergeSort (String × Int) (fun a b => decide (b.2 ≤ a.2))
        htrans htotal items
    have hp : (rankItems items).Pairwise (fun a b : String × Int => b.2 ≤ a.2) :=
      hsorted.imp (fun h => of_decide_eq_true h)
    unfold applyFolderCap
    split
    · exact List.Pairwise.sublist (List.take_sublist _ _) hp
    · exact hp
  · exact folderSelect_example_eval

/-- C7: the per-file extractor is a total function: the unsupported
extension, unreadable csv, failing xlsx reader, missing xlrd and failing
xls reader cases all return a single sentinel row instead of raising. -/
theorem extractor_degrades_to_sentinels (avail : Bool) (path : String) (file : ScanFile)
    (n : Nat) :
    (strLower (pathSuffix path) ∉ ALLOWED_EXTS →
      get_first_lines_for_file avail path file n = [UNSUPPORTED_EXT_SENTINEL]) ∧
    (strLower (pathSuffix path) = ".csv" → file.csvView = CsvFile.inaccessible →
      get_first_lines_for_file avail path file n = [CSV_FAIL_SENTINEL]) ∧
    (∀ msg, strLower (pathSuffix path) = ".xlsx" → file.xlsxView = SheetFile.error msg →
      get_first_lines_for_file avail path file n = ["<xlsx ошибка: " ++ msg ++ ">"]) ∧
    (strLower (pathSuffix path) = ".xls" → avail = false →
      get_first_lines_for_file avail path file n = [XLRD_MISSING_SENTINEL]) ∧
    (∀ msg, strLower (pathSuffix path) = ".xls" → avail = true →
      file.xlsView = SheetFile.error msg →
      get_first_lines_for_file avail path file n = ["<xls ошибка: " ++ msg ++ ">"]) := by
  refine ⟨?_, ?_, ?_, ?_, ?_⟩
  · intro hext
    simp only [ALLOWED_EXTS, List.mem_cons, List.not_mem_nil, or_false, not_or] at hext
    simp [get_first_lines_for_file, hext.1, hext.2.1, hext.2.2]
  · intro hext hcsv
    simp [get_first_lines_for_file, hext, hcsv, read_csv_first_lines]
  · intro msg hext hx
    simp [get_first_lines_for_file, hext, hx, read_xlsx_first_rows]
  · intro hext hav
    simp [get_first_lines_for_file, hext, hav, read_xls_first_rows]
  · intro msg hext hav hx
    simp [get_first_lines_for_file, hext, hav, hx, read_xls_first_rows]

theorem extractor_degrades_to_sentinels_witness :
    strLower (pathSuffix "dir/readme.txt") ∉ ALLOWED_EXTS ∧
      get_first_lines_for_file true "dir/readme.txt"
        ⟨CsvFile.inaccessible, SheetFile.sheet [], SheetFile.sheet []⟩ 3 =
        [UNSUPPORTED_EXT_SENTINEL] :=
  ⟨by decide,
    (extractor_degrades_to_sentinels true "dir/readme.txt"
      ⟨CsvFile.inaccessible, SheetFile.sheet [], SheetFile.sheet []⟩ 3).1 (by decide)⟩

/-- C9: when no byte-order mark matched and a statistical detector reports
plain ASCII (charset-normalizer, or chardet when charset-normalizer yields
nothing), detection reports UTF-8 instead of ASCII. -/
theorem ascii_reported_as_utf8 (data : List Nat) (nr cr : Option String) (enc : String)
    (h8 : bytesStartWith data [0xef, 0xbb, 0xbf] = false)
    (h32 : (bytesStartWith data [0xff, 0xfe, 0x00, 0x00] ||
      bytesStartWith data [0x00, 0x00, 0xfe, 0xff]) = false)
    (h16 : (bytesStartWith data [0xff, 0xfe] || bytesStartWith data [0xfe, 0xff]) = false)
    (hdet : (nr = some enc ∧ strLower enc = "ascii") ∨
      (nr = none ∧ cr = some enc ∧ strLower enc = "ascii")) :
    detect_encoding data nr cr = some "utf-8" := by
  rcases hdet with ⟨hnr, hasc⟩ | ⟨hnr, hcr, hasc⟩
  · subst hnr
    simp [detect_encoding, h8, h32, h16, hasc]
  · subst hnr
    subst hcr
    simp [detect_encoding, h8, h32, h16, hasc]

theorem ascii_reported_as_utf8_witness :
    bytesStartWith [0x68, 0x69] [0xef, 0xbb, 0xbf] = false ∧
      (bytesStartWith [0x68, 0x69] [0xff, 0xfe, 0x00, 0x00] ||
        bytesStartWith [0x68, 0x69] [0x00, 0x00, 0xfe, 0xff]) = false ∧
      (bytesStartWith [0x68, 0x69] [0xff, 0xfe] ||
        bytesStartWith [0x68, 0x69] [0xfe, 0xff]) = false ∧
      strLower "ascii" = "ascii" ∧
      detect_encoding [0x68, 0x69] (some "ascii") none = some "utf-8" :=
  ⟨by decide, by decide, by decide, by decide,
    ascii_reported_as_utf8 [0x68, 0x69] (some "ascii") none "ascii" (by decide) (by decide)
      (by decide) (Or.inl ⟨rfl, by decide⟩)⟩

end ScanFiles
